import Mathlib

/-!
Verification of the canvas linear-regression visualiser
(`src/pages/LinearRegression.tsx` and the two unnamed near-duplicate
variants `src/unnamed/part_000`, `src/unnamed/part_001`).

JavaScript numbers are modelled as exact rationals (`ℚ`); every
definition below is a direct transcription of the corresponding
TypeScript function, with the source location given in its doc comment.
-/

/-- A data point, `type Point = { x: number; y: number }`. -/
structure Point where
  x : ℚ
  y : ℚ
deriving DecidableEq

/-- Result record of `calcRegression`: `{ m, b, error }`. -/
structure RegResult where
  m : ℚ
  b : ℚ
  error : ℚ
deriving DecidableEq

/-- Transcription of `calcRegression` (LinearRegression.tsx lines 19-34;
identical in part_000 lines 10-25 and part_001 lines 9-24).
`points.reduce((s, p) => s + f p, 0)` becomes `List.foldl (fun s p => s + f p) 0`,
and `denom === 0` is exact rational equality. -/
def calcRegression (points : List Point) : RegResult :=
  let n : ℚ := points.length
  if points.length = 0 then ⟨0, 0, 0⟩
  else
    let sumX := points.foldl (fun s p => s + p.x) 0
    let sumY := points.foldl (fun s p => s + p.y) 0
    let sumXY := points.foldl (fun s p => s + p.x * p.y) 0
    let sumX2 := points.foldl (fun s p => s + p.x * p.x) 0
    let denom := n * sumX2 - sumX * sumX
    let m := if denom = 0 then 0 else (n * sumXY - sumX * sumY) / denom
    let b := (sumY - m * sumX) / n
    let error := points.foldl (fun e p => e + (p.y - (m * p.x + b)) ^ 2) 0
    ⟨m, b, error⟩

/-- Spec-side sum `ΣX` written independently of the fold in the code. -/
def sigmaX (points : List Point) : ℚ := (points.map Point.x).sum

/-- Spec-side sum `ΣY`. -/
def sigmaY (points : List Point) : ℚ := (points.map Point.y).sum

/-- Spec-side sum `ΣXY`. -/
def sigmaXY (points : List Point) : ℚ := (points.map (fun p => p.x * p.y)).sum

/-- Spec-side sum `ΣX²`. -/
def sigmaX2 (points : List Point) : ℚ := (points.map (fun p => p.x * p.x)).sum

/-- Spec-side OLS denominator `n·ΣX² − (ΣX)²`. -/
def olsDenom (points : List Point) : ℚ :=
  (points.length : ℚ) * sigmaX2 points - sigmaX points * sigmaX points

/-- Spec-side sum-squared-error `Σ(yᵢ − (m·xᵢ + b))²` for a line `(m, b)`. -/
def sseOf (points : List Point) (m b : ℚ) : ℚ :=
  (points.map (fun p => (p.y - (m * p.x + b)) ^ 2)).sum

lemma foldl_add_map (f : Point → ℚ) :
    ∀ (l : List Point) (a : ℚ), l.foldl (fun s p => s + f p) a = a + (l.map f).sum := by
  intro l
  induction l with
  | nil => intro a; simp
  | cons p t ih =>
    intro a
    simp only [List.foldl_cons, List.map_cons, List.sum_cons, ih]
    ring

lemma foldl_sq_map (m b : ℚ) :
    ∀ (l : List Point) (a : ℚ),
      l.foldl (fun e p => e + (p.y - (m * p.x + b)) ^ 2) a = a + sseOf l m b := by
  intro l
  induction l with
  | nil => intro a; simp [sseOf]
  | cons p t ih =>
    intro a
    simp only [List.foldl_cons, ih, sseOf, List.map_cons, List.sum_cons]
    ring

/-- Closed form of `calcRegression` on a non-empty list, phrased with the
spec-side sums. -/
lemma calcRegression_eq (points : List Point) (h : points ≠ []) :
    calcRegression points =
      let m := if olsDenom points = 0 then 0 else
        ((points.length : ℚ) * sigmaXY points - sigmaX points * sigmaY points) / olsDenom points
      let b := (sigmaY points - m * sigmaX points) / (points.length : ℚ)
      ⟨m, b, sseOf points m b⟩ := by
  have hn : points.length ≠ 0 := by simpa using h
  simp only [calcRegression, if_neg hn]
  simp only [foldl_add_map, foldl_sq_map, zero_add]
  rfl

lemma calcRegression_nil : calcRegression [] = ⟨0, 0, 0⟩ := rfl

/-- C1: for every point sequence with at least one point, `calcRegression`
returns the spec's closed-form OLS values — slope
`(n·ΣXY − ΣX·ΣY)/(n·ΣX² − (ΣX)²)` whenever the denominator is non-zero,
intercept `(ΣY − slope·ΣX)/n`, and error `Σ(yᵢ − (slope·xᵢ + intercept))²`;
for the empty sequence it returns `(0, 0, 0)`. -/
theorem calcRegression_spec (points : List Point) :
    (points = [] → calcRegression points = ⟨0, 0, 0⟩) ∧
    (points ≠ [] →
      (calcRegression points).b =
        (sigmaY points - (calcRegression points).m * sigmaX points) / (points.length : ℚ) ∧
      (calcRegression points).error =
        sseOf points (calcRegression points).m (calcRegression points).b ∧
      (olsDenom points ≠ 0 →
        (calcRegression points).m =
          ((points.length : ℚ) * sigmaXY points - sigmaX points * sigmaY points) /
            olsDenom points)) := by
  constructor
  · intro h; subst h; rfl
  · intro h
    rw [calcRegression_eq points h]
    refine ⟨rfl, rfl, fun hd => ?_⟩
    simp only [if_neg hd]

/-- C1 witness at the default five-point data set. -/
theorem calcRegression_spec_witness :
    ([⟨1, 3⟩, ⟨2, 5⟩, ⟨3, 4⟩, ⟨4, 7⟩, ⟨5, 8⟩] : List Point) ≠ [] ∧
    (calcRegression [⟨1, 3⟩, ⟨2, 5⟩, ⟨3, 4⟩, ⟨4, 7⟩, ⟨5, 8⟩]).m =
      ((5 : ℚ) * sigmaXY [⟨1, 3⟩, ⟨2, 5⟩, ⟨3, 4⟩, ⟨4, 7⟩, ⟨5, 8⟩] -
        sigmaX [⟨1, 3⟩, ⟨2, 5⟩, ⟨3, 4⟩, ⟨4, 7⟩, ⟨5, 8⟩] *
          sigmaY [⟨1, 3⟩, ⟨2, 5⟩, ⟨3, 4⟩, ⟨4, 7⟩, ⟨5, 8⟩]) /
        olsDenom [⟨1, 3⟩, ⟨2, 5⟩, ⟨3, 4⟩, ⟨4, 7⟩, ⟨5, 8⟩] := by
  refine ⟨by simp, ?_⟩
  have h := (calcRegression_spec [⟨1, 3⟩, ⟨2, 5⟩, ⟨3, 4⟩, ⟨4, 7⟩, ⟨5, 8⟩]).2
    (by simp) |>.2.2 (by norm_num [olsDenom, sigmaX, sigmaX2])
  simpa using h

/-- Initial point set of the component (`points` initial state,
LinearRegression.tsx lines 38-44; identical in both variants). -/
def defaultPoints : List Point := [⟨1, 3⟩, ⟨2, 5⟩, ⟨3, 4⟩, ⟨4, 7⟩, ⟨5, 8⟩]

/-- Mean of the x values. -/
def meanX (points : List Point) : ℚ := sigmaX points / (points.length : ℚ)

/-- Mean of the y values. -/
def meanY (points : List Point) : ℚ := sigmaY points / (points.length : ℚ)

/-- C2 counterexample: on the default data set the computed intercept is
exactly `9/5 = 1.8`, which is `2/5 = 0.4` away from the claimed `≈ 1.4`,
so the "intercept ≈ 1.4" part of the claim is false. -/
theorem defaultFit_intercept_refutes_approx14 :
    (calcRegression defaultPoints).b = 9 / 5 ∧
    |(calcRegression defaultPoints).b - 14 / 10| = 2 / 5 := by
  norm_num [calcRegression, defaultPoints]

/-- C2 amended: on the default data set `{(1,3),(2,5),(3,4),(4,7),(5,8)}`
the fit is exactly slope `6/5 = 1.2`, intercept `9/5 = 1.8` (not `1.4`),
and sum-squared-error `14/5 = 2.8`; the slope agrees with the mean form
`Σ(x−x̄)(y−ȳ)/Σ(x−x̄)²` and the intercept with `ȳ − slope·x̄`, matching the
engine's own closed-form sums exactly. -/
theorem defaultFit_exact_values :
    calcRegression defaultPoints = ⟨6 / 5, 9 / 5, 14 / 5⟩ ∧
    (calcRegression defaultPoints).m =
      (defaultPoints.map
          (fun p => (p.x - meanX defaultPoints) * (p.y - meanY defaultPoints))).sum /
        (defaultPoints.map (fun p => (p.x - meanX defaultPoints) ^ 2)).sum ∧
    (calcRegression defaultPoints).b =
      meanY defaultPoints - (calcRegression defaultPoints).m * meanX defaultPoints := by
  norm_num [calcRegression, defaultPoints, meanX, meanY, sigmaX, sigmaY]

/-- Axis-aligned plotting domain `{xmin, xmax, ymin, ymax}`. -/
structure Domain where
  xmin : ℚ
  xmax : ℚ
  ymin : ℚ
  ymax : ℚ
deriving DecidableEq

/-- Value of `Math.min(...points.map(p => p.x))` on the non-empty list
`p :: rest`. -/
def minXof (p : Point) (rest : List Point) : ℚ := rest.foldl (fun a q => min a q.x) p.x

/-- Value of `Math.max(...points.map(p => p.x))` on `p :: rest`. -/
def maxXof (p : Point) (rest : List Point) : ℚ := rest.foldl (fun a q => max a q.x) p.x

/-- Value of `Math.min(...points.map(p => p.y))` on `p :: rest`. -/
def minYof (p : Point) (rest : List Point) : ℚ := rest.foldl (fun a q => min a q.y) p.y

/-- Value of `Math.max(...points.map(p => p.y))` on `p :: rest`. -/
def maxYof (p : Point) (rest : List Point) : ℚ := rest.foldl (fun a q => max a q.y) p.y

/-- The x padding `Math.max(1, (xmax - xmin) * 0.15)`. -/
def xpadOf (p : Point) (rest : List Point) : ℚ :=
  max 1 ((maxXof p rest - minXof p rest) * (15 / 100))

/-- The y padding `Math.max(1, (ymax - ymin) * 0.15)`. -/
def ypadOf (p : Point) (rest : List Point) : ℚ :=
  max 1 ((maxYof p rest - minYof p rest) * (15 / 100))

/-- Transcription of `getDomain` (LinearRegression.tsx lines 67-86):
default `[0,10]×[0,10]` when empty; otherwise min/max per axis, padded by
`max(1, range·0.15)`, then a flat-axis check `|span| < 1e-6` that would
force a span of 5. No floor/ceil in this variant. -/
def getDomain : List Point → Domain
  | [] => ⟨0, 10, 0, 10⟩
  | p :: rest =>
    let xmin1 := minXof p rest - xpadOf p rest
    let xmax1 := maxXof p rest + xpadOf p rest
    let ymin1 := minYof p rest - ypadOf p rest
    let ymax1 := maxYof p rest + ypadOf p rest
    let xmax2 := if |xmax1 - xmin1| < 1 / 1000000 then xmin1 + 5 else xmax1
    let ymax2 := if |ymax1 - ymin1| < 1 / 1000000 then ymin1 + 5 else ymax1
    ⟨xmin1, xmax2, ymin1, ymax2⟩

/-- Transcription of the `getDomain` variant of part_000 (lines 58-77) and
part_001 (lines 72-93): same as `getDomain` but the padded bounds are
floored (mins) and ceiled (maxes) before the flat-axis check. -/
def getDomainFC : List Point → Domain
  | [] => ⟨0, 10, 0, 10⟩
  | p :: rest =>
    let xmin1 : ℚ := ⌊minXof p rest - xpadOf p rest⌋
    let xmax1 : ℚ := ⌈maxXof p rest + xpadOf p rest⌉
    let ymin1 : ℚ := ⌊minYof p rest - ypadOf p rest⌋
    let ymax1 : ℚ := ⌈maxYof p rest + ypadOf p rest⌉
    let xmax2 := if |xmax1 - xmin1| < 1 / 1000000 then xmin1 + 5 else xmax1
    let ymax2 := if |ymax1 - ymin1| < 1 / 1000000 then ymin1 + 5 else ymax1
    ⟨xmin1, xmax2, ymin1, ymax2⟩

lemma foldl_min_le (f : Point → ℚ) :
    ∀ (l : List Point) (a : ℚ), l.foldl (fun s q => min s (f q)) a ≤ a := by
  intro l
  induction l with
  | nil => intro a; exact le_refl a
  | cons q t ih =>
    intro a
    calc t.foldl (fun s q => min s (f q)) (min a (f q)) ≤ min a (f q) := ih _
      _ ≤ a := min_le_left _ _

lemma le_foldl_max (f : Point → ℚ) :
    ∀ (l : List Point) (a : ℚ), a ≤ l.foldl (fun s q => max s (f q)) a := by
  intro l
  induction l with
  | nil => intro a; exact le_refl a
  | cons q t ih =>
    intro a
    calc a ≤ max a (f q) := le_max_left _ _
      _ ≤ t.foldl (fun s q => max s (f q)) (max a (f q)) := ih _

lemma minXof_le_maxXof (p : Point) (rest : List Point) : minXof p rest ≤ maxXof p rest :=
  le_trans (foldl_min_le Point.x rest p.x) (le_foldl_max Point.x rest p.x)

lemma minYof_le_maxYof (p : Point) (rest : List Point) : minYof p rest ≤ maxYof p rest :=
  le_trans (foldl_min_le Point.y rest p.y) (le_foldl_max Point.y rest p.y)

lemma one_le_xpadOf (p : Point) (rest : List Point) : 1 ≤ xpadOf p rest := le_max_left _ _

lemma one_le_ypadOf (p : Point) (rest : List Point) : 1 ≤ ypadOf p rest := le_max_left _ _

/-- The padded x span is at least 2, so the flat-axis check never fires. -/
lemma two_le_padded_span_x (p : Point) (rest : List Point) :
    2 ≤ (maxXof p rest + xpadOf p rest) - (minXof p rest - xpadOf p rest) := by
  have h1 := minXof_le_maxXof p rest
  have h2 := one_le_xpadOf p rest
  linarith

lemma two_le_padded_span_y (p : Point) (rest : List Point) :
    2 ≤ (maxYof p rest + ypadOf p rest) - (minYof p rest - ypadOf p rest) := by
  have h1 := minYof_le_maxYof p rest
  have h2 := one_le_ypadOf p rest
  linarith

/-- On a non-empty list, `getDomain` returns exactly the padded bounds:
the flat-axis branch is dead code. -/
lemma getDomain_cons (p : Point) (rest : List Point) :
    getDomain (p :: rest) =
      ⟨minXof p rest - xpadOf p rest, maxXof p rest + xpadOf p rest,
       minYof p rest - ypadOf p rest, maxYof p rest + ypadOf p rest⟩ := by
  have hx := two_le_padded_span_x p rest
  have hy := two_le_padded_span_y p rest
  have hx1 : ¬ |(maxXof p rest + xpadOf p rest) - (minXof p rest - xpadOf p rest)| <
      1 / 1000000 := by
    rw [abs_of_nonneg (by linarith)]
    intro hcon
    linarith
  have hy1 : ¬ |(maxYof p rest + ypadOf p rest) - (minYof p rest - ypadOf p rest)| <
      1 / 1000000 := by
    rw [abs_of_nonneg (by linarith)]
    intro hcon
    linarith
  simp only [getDomain, if_neg hx1, if_neg hy1]

/-- Same for the floor/ceil variant: floors only move mins down and ceils
only move maxes up, so the span stays at least 2 and the flat-axis branch
is dead. -/
lemma getDomainFC_cons (p : Point) (rest : List Point) :
    getDomainFC (p :: rest) =
      ⟨(⌊minXof p rest - xpadOf p rest⌋ : ℚ), (⌈maxXof p rest + xpadOf p rest⌉ : ℚ),
       (⌊minYof p rest - ypadOf p rest⌋ : ℚ), (⌈maxYof p rest + ypadOf p rest⌉ : ℚ)⟩ := by
  have hx := two_le_padded_span_x p rest
  have hy := two_le_padded_span_y p rest
  have hfx : (⌊minXof p rest - xpadOf p rest⌋ : ℚ) ≤ minXof p rest - xpadOf p rest :=
    Int.floor_le _
  have hcx : maxXof p rest + xpadOf p rest ≤ (⌈maxXof p rest + xpadOf p rest⌉ : ℚ) :=
    Int.le_ceil _
  have hfy : (⌊minYof p rest - ypadOf p rest⌋ : ℚ) ≤ minYof p rest - ypadOf p rest :=
    Int.floor_le _
  have hcy : maxYof p rest + ypadOf p rest ≤ (⌈maxYof p rest + ypadOf p rest⌉ : ℚ) :=
    Int.le_ceil _
  have hx1 : ¬ |(⌈maxXof p rest + xpadOf p rest⌉ : ℚ) - (⌊minXof p rest - xpadOf p rest⌋ : ℚ)| <
      1 / 1000000 := by
    rw [abs_of_nonneg (by linarith)]
    intro hcon
    linarith
  have hy1 : ¬ |(⌈maxYof p rest + ypadOf p rest⌉ : ℚ) - (⌊minYof p rest - ypadOf p rest⌋ : ℚ)| <
      1 / 1000000 := by
    rw [abs_of_nonneg (by linarith)]
    intro hcon
    linarith
  simp only [getDomainFC, if_neg hx1, if_neg hy1]

/-- C4 counterexample: for the single point `(3,3)` (zero variance on both
axes, data range 0) both `getDomain` variants return `[2,4]×[2,4]`: the
bounds are `min/max ± 1` (not `± 15%` of the range, which is 0 here, and
floor/ceil change nothing), and the zero-variance axis span is 2, not the
claimed minimum width of 5. -/
theorem getDomain_singleton_counterexample :
    getDomain [⟨3, 3⟩] = ⟨2, 4, 2, 4⟩ ∧
    getDomainFC [⟨3, 3⟩] = ⟨2, 4, 2, 4⟩ ∧
    (getDomain [⟨3, 3⟩]).xmax - (getDomain [⟨3, 3⟩]).xmin < 5 ∧
    ((3 : ℚ) - 3) * (15 / 100) = 0 := by
  have h1 : getDomain [⟨3, 3⟩] = ⟨2, 4, 2, 4⟩ := by
    rw [getDomain_cons]
    norm_num [minXof, maxXof, minYof, maxYof, xpadOf, ypadOf]
  have h2 : getDomainFC [⟨3, 3⟩] = ⟨2, 4, 2, 4⟩ := by
    rw [getDomainFC_cons]
    norm_num [minXof, maxXof, minYof, maxYof, xpadOf, ypadOf]
  refine ⟨h1, h2, ?_, by norm_num⟩
  rw [h1]
  norm_num

/-- C4 amended: the empty sequence gives the fixed default `[0,10]×[0,10]`;
a non-empty sequence gives each bound extended by `max(1, 15% of the data
range)` — additionally floored/ceiled in the part_000/part_001 variant but
not in the main variant — and since that padding forces every span to be
at least 2, the near-zero-variance fallback (span forced to 5) is dead
code and a zero-variance axis actually gets span 2 (main variant). -/
theorem getDomain_amended (points : List Point) :
    (points = [] → getDomain points = ⟨0, 10, 0, 10⟩ ∧ getDomainFC points = ⟨0, 10, 0, 10⟩) ∧
    (∀ p rest, points = p :: rest →
      getDomain points =
        ⟨minXof p rest - xpadOf p rest, maxXof p rest + xpadOf p rest,
         minYof p rest - ypadOf p rest, maxYof p rest + ypadOf p rest⟩ ∧
      getDomainFC points =
        ⟨(⌊minXof p rest - xpadOf p rest⌋ : ℚ), (⌈maxXof p rest + xpadOf p rest⌉ : ℚ),
         (⌊minYof p rest - ypadOf p rest⌋ : ℚ), (⌈maxYof p rest + ypadOf p rest⌉ : ℚ)⟩ ∧
      2 ≤ (getDomain points).xmax - (getDomain points).xmin ∧
      2 ≤ (getDomain points).ymax - (getDomain points).ymin ∧
      2 ≤ (getDomainFC points).xmax - (getDomainFC points).xmin ∧
      2 ≤ (getDomainFC points).ymax - (getDomainFC points).ymin) := by
  constructor
  · intro h; subst h; exact ⟨rfl, rfl⟩
  · intro p rest h
    subst h
    refine ⟨getDomain_cons p rest, getDomainFC_cons p rest, ?_, ?_, ?_, ?_⟩
    · rw [getDomain_cons]; exact two_le_padded_span_x p rest
    · rw [getDomain_cons]; exact two_le_padded_span_y p rest
    · rw [getDomainFC_cons]
      have := two_le_padded_span_x p rest
      have hf : (⌊minXof p rest - xpadOf p rest⌋ : ℚ) ≤ minXof p rest - xpadOf p rest :=
        Int.floor_le _
      have hc : maxXof p rest + xpadOf p rest ≤ (⌈maxXof p rest + xpadOf p rest⌉ : ℚ) :=
        Int.le_ceil _
      simpa using by linarith
    · rw [getDomainFC_cons]
      have := two_le_padded_span_y p rest
      have hf : (⌊minYof p rest - ypadOf p rest⌋ : ℚ) ≤ minYof p rest - ypadOf p rest :=
        Int.floor_le _
      have hc : maxYof p rest + ypadOf p rest ≤ (⌈maxYof p rest + ypadOf p rest⌉ : ℚ) :=
        Int.le_ceil _
      simpa using by linarith

/-- C4 witness: the amended theorem instantiated at the default data set. -/
theorem getDomain_amended_witness :
    getDomain defaultPoints = ⟨0, 6, 2, 9⟩ ∧ 2 ≤ (getDomain defaultPoints).xmax -
      (getDomain defaultPoints).xmin := by
  have h := (getDomain_amended defaultPoints).2 ⟨1, 3⟩ [⟨2, 5⟩, ⟨3, 4⟩, ⟨4, 7⟩, ⟨5, 8⟩] rfl
  refine ⟨?_, h.2.2.1⟩
  rw [h.1]
  norm_num [minXof, maxXof, minYof, maxYof, xpadOf, ypadOf]

/-- Canvas padding for the axes area, `const PADDING = 48`. -/
def PADDING : ℚ := 48

/-- Transcription of `dataToPixel` (LinearRegression.tsx lines 89-94):
affine map from data space to pixel space over the current domain; the y
axis is inverted. -/
def dataToPixel (points : List Point) (x y width height : ℚ) : ℚ × ℚ :=
  let d := getDomain points
  (PADDING + ((x - d.xmin) / (d.xmax - d.xmin)) * (width - 2 * PADDING),
   height - PADDING - ((y - d.ymin) / (d.ymax - d.ymin)) * (height - 2 * PADDING))

/-- Transcription of `pixelToData` (LinearRegression.tsx lines 95-100):
the inverse affine map. -/
def pixelToData (points : List Point) (px py width height : ℚ) : ℚ × ℚ :=
  let d := getDomain points
  (d.xmin + ((px - PADDING) / (width - 2 * PADDING)) * (d.xmax - d.xmin),
   d.ymin + ((height - PADDING - py) / (height - 2 * PADDING)) * (d.ymax - d.ymin))

/-- For a non-empty point list both domain spans are at least 2, hence
positive. -/
lemma getDomain_spans (points : List Point) (h : points ≠ []) :
    2 ≤ (getDomain points).xmax - (getDomain points).xmin ∧
    2 ≤ (getDomain points).ymax - (getDomain points).ymin := by
  cases points with
  | nil => exact absurd rfl h
  | cons p rest =>
    rw [getDomain_cons]
    exact ⟨two_le_padded_span_x p rest, two_le_padded_span_y p rest⟩

/-- C3: for every non-empty point sequence and every viewport strictly
wider and taller than `2·PADDING`, the coordinate mapping round-trips
exactly (`pixelToData ∘ dataToPixel = id`, which is stronger than the
claimed floating tolerance), pixel x is strictly increasing in data x,
and pixel y is strictly decreasing in data y. -/
theorem mapper_roundtrip (points : List Point) (width height : ℚ)
    (hne : points ≠ []) (hw : 2 * PADDING < width) (hh : 2 * PADDING < height) :
    (∀ x y, pixelToData points (dataToPixel points x y width height).1
        (dataToPixel points x y width height).2 width height = (x, y)) ∧
    (∀ x1 x2 y, x1 < x2 →
      (dataToPixel points x1 y width height).1 < (dataToPixel points x2 y width height).1) ∧
    (∀ x y1 y2, y1 < y2 →
      (dataToPixel points x y2 width height).2 < (dataToPixel points x y1 width height).2) := by
  obtain ⟨hsx, hsy⟩ := getDomain_spans points hne
  have hsx0 : (0 : ℚ) < (getDomain points).xmax - (getDomain points).xmin := by linarith
  have hsy0 : (0 : ℚ) < (getDomain points).ymax - (getDomain points).ymin := by linarith
  have hw0 : (0 : ℚ) < width - 2 * PADDING := by linarith
  have hh0 : (0 : ℚ) < height - 2 * PADDING := by linarith
  refine ⟨?_, ?_, ?_⟩
  · intro x y
    simp only [dataToPixel, pixelToData, Prod.mk.injEq]
    constructor
    · field_simp
      ring
    · field_simp
      ring
  · intro x1 x2 y hlt
    have key : (dataToPixel points x2 y width height).1 -
        (dataToPixel points x1 y width height).1 =
        ((x2 - x1) / ((getDomain points).xmax - (getDomain points).xmin)) *
          (width - 2 * PADDING) := by
      simp only [dataToPixel]
      ring
    have hpos : (0 : ℚ) <
        ((x2 - x1) / ((getDomain points).xmax - (getDomain points).xmin)) *
          (width - 2 * PADDING) :=
      mul_pos (div_pos (by linarith) hsx0) hw0
    linarith [key ▸ hpos]
  · intro x y1 y2 hlt
    have key : (dataToPixel points x y1 width height).2 -
        (dataToPixel points x y2 width height).2 =
        ((y2 - y1) / ((getDomain points).ymax - (getDomain points).ymin)) *
          (height - 2 * PADDING) := by
      simp only [dataToPixel]
      ring
    have hpos : (0 : ℚ) <
        ((y2 - y1) / ((getDomain points).ymax - (getDomain points).ymin)) *
          (height - 2 * PADDING) :=
      mul_pos (div_pos (by linarith) hsy0) hh0
    linarith [key ▸ hpos]

/-- C3 witness: round trip and monotonicity instantiated on the default
data set with an 800×420 viewport. -/
theorem mapper_roundtrip_witness :
    pixelToData defaultPoints (dataToPixel defaultPoints 2 3 800 420).1
      (dataToPixel defaultPoints 2 3 800 420).2 800 420 = (2, 3) ∧
    (dataToPixel defaultPoints 1 3 800 420).1 < (dataToPixel defaultPoints 5 3 800 420).1 ∧
    (dataToPixel defaultPoints 1 8 800 420).2 < (dataToPixel defaultPoints 1 3 800 420).2 := by
  have h := mapper_roundtrip defaultPoints 800 420 (by simp [defaultPoints])
    (by norm_num [PADDING]) (by norm_num [PADDING])
  exact ⟨h.1 2 3, h.2.1 1 5 3 (by norm_num), h.2.2 1 3 8 (by norm_num)⟩

lemma sigmaX_const (points : List Point) (c : ℚ) (hc : ∀ p ∈ points, p.x = c) :
    sigmaX points = (points.length : ℚ) * c := by
  induction points with
  | nil => simp [sigmaX]
  | cons p t ih =>
    have hp : p.x = c := hc p (List.mem_cons_self p t)
    have ht : ∀ q ∈ t, q.x = c := fun q hq => hc q (List.mem_cons_of_mem p hq)
    simp only [sigmaX, List.map_cons, List.sum_cons, List.length_cons] at ih ⊢
    rw [hp, ih ht]
    push_cast
    ring

lemma sigmaX2_const (points : List Point) (c : ℚ) (hc : ∀ p ∈ points, p.x = c) :
    sigmaX2 points = (points.length : ℚ) * (c * c) := by
  induction points with
  | nil => simp [sigmaX2]
  | cons p t ih =>
    have hp : p.x = c := hc p (List.mem_cons_self p t)
    have ht : ∀ q ∈ t, q.x = c := fun q hq => hc q (List.mem_cons_of_mem p hq)
    simp only [sigmaX2, List.map_cons, List.sum_cons, List.length_cons] at ih ⊢
    rw [hp, ih ht]
    push_cast
    ring

lemma olsDenom_zero_of_const (points : List Point) (c : ℚ) (hc : ∀ p ∈ points, p.x = c) :
    olsDenom points = 0 := by
  rw [olsDenom, sigmaX_const points c hc, sigmaX2_const points c hc]
  ring

/-- With zero x-variance the slope guard fires: the fit is
`(0, ΣY/n, error)`. -/
lemma calcRegression_const_x (points : List Point) (c : ℚ) (hne : points ≠ [])
    (hc : ∀ p ∈ points, p.x = c) :
    calcRegression points =
      ⟨0, sigmaY points / (points.length : ℚ),
       sseOf points 0 (sigmaY points / (points.length : ℚ))⟩ := by
  rw [calcRegression_eq points hne]
  simp only [if_pos (olsDenom_zero_of_const points c hc), zero_mul, sub_zero]

/-- C7: for every non-empty point sequence in which all x are equal the
OLS denominator `n·ΣX² − (ΣX)²` is exactly zero (in this exact-rational
model the "within floating tolerance" case collapses to equality), the
guard fires and the slope is 0, and all three outputs are well-defined
rationals — no NaN or Infinity can arise since every operation is total
exact arithmetic and the division by `denom` is guarded. -/
theorem zero_variance_slope (points : List Point) (c : ℚ) (hne : points ≠ [])
    (hc : ∀ p ∈ points, p.x = c) :
    olsDenom points = 0 ∧ (calcRegression points).m = 0 := by
  refine ⟨olsDenom_zero_of_const points c hc, ?_⟩
  rw [calcRegression_const_x points c hne hc]

/-- C7 witness at three points sharing x = 2. -/
theorem zero_variance_slope_witness :
    olsDenom [⟨2, 1⟩, ⟨2, 4⟩, ⟨2, 7⟩] = 0 ∧
    (calcRegression [⟨2, 1⟩, ⟨2, 4⟩, ⟨2, 7⟩]).m = 0 :=
  zero_variance_slope [⟨2, 1⟩, ⟨2, 4⟩, ⟨2, 7⟩] 2 (by simp) (by intro p hp; fin_cases hp <;> rfl)

/-- C10: for every non-empty point sequence with all x equal, the forced
slope 0 makes the intercept the arithmetic mean of the y values `ΣY/n`
and the sum-squared-error `Σ(yᵢ − ȳ)²`. -/
theorem zero_variance_intercept_mean (points : List Point) (c : ℚ) (hne : points ≠ [])
    (hc : ∀ p ∈ points, p.x = c) :
    (calcRegression points).b = sigmaY points / (points.length : ℚ) ∧
    (calcRegression points).error =
      (points.map (fun p => (p.y - meanY points) ^ 2)).sum := by
  rw [calcRegression_const_x points c hne hc]
  refine ⟨rfl, ?_⟩
  simp only [sseOf, zero_mul, zero_add, meanY]

/-- C10 witness at three points sharing x = 2: intercept is the mean 4 and
the error is `(1−4)² + (4−4)² + (7−4)² = 18`. -/
theorem zero_variance_intercept_mean_witness :
    (calcRegression [⟨2, 1⟩, ⟨2, 4⟩, ⟨2, 7⟩]).b = 4 ∧
    (calcRegression [⟨2, 1⟩, ⟨2, 4⟩, ⟨2, 7⟩]).error = 18 := by
  have h := zero_variance_intercept_mean [⟨2, 1⟩, ⟨2, 4⟩, ⟨2, 7⟩] 2 (by simp)
    (by intro p hp; fin_cases hp <;> rfl)
  have h1 := h.1
  have h2 := h.2
  norm_num [sigmaY, meanY, sigmaX] at h1 h2
  exact ⟨h1, by rw [h2]⟩

/-- C8: `calcRegression` is invariant under permutation of the point
sequence — all four sums, the length, and the error sum are permutation
invariant. -/
theorem calcRegression_perm_invariant (points1 points2 : List Point)
    (h : points1.Perm points2) : calcRegression points1 = calcRegression points2 := by
  rcases eq_or_ne points1 [] with h1 | h1
  · subst h1
    rw [h.symm.eq_nil]
  · have h2 : points2 ≠ [] := by
      intro hh
      subst hh
      exact h1 h.eq_nil
    have hlen : (points1.length : ℚ) = (points2.length : ℚ) := by
      exact_mod_cast h.length_eq
    have hx : sigmaX points1 = sigmaX points2 := by
      simpa [sigmaX] using (h.map Point.x).sum_eq
    have hy : sigmaY points1 = sigmaY points2 := by
      simpa [sigmaY] using (h.map Point.y).sum_eq
    have hxy : sigmaXY points1 = sigmaXY points2 := by
      simpa [sigmaXY] using (h.map (fun p => p.x * p.y)).sum_eq
    have hx2 : sigmaX2 points1 = sigmaX2 points2 := by
      simpa [sigmaX2] using (h.map (fun p => p.x * p.x)).sum_eq
    have hden : olsDenom points1 = olsDenom points2 := by
      rw [olsDenom, olsDenom, hlen, hx, hx2]
    have hsse : ∀ m b, sseOf points1 m b = sseOf points2 m b := by
      intro m b
      simpa [sseOf] using (h.map (fun p => (p.y - (m * p.x + b)) ^ 2)).sum_eq
    rw [calcRegression_eq points1 h1, calcRegression_eq points2 h2]
    simp only [hden, hlen, hx, hy, hxy, hsse]

/-- C8 witness: swapping two concrete points leaves the fit unchanged. -/
theorem calcRegression_perm_invariant_witness :
    calcRegression [⟨1, 1⟩, ⟨2, 2⟩] = calcRegression [⟨2, 2⟩, ⟨1, 1⟩] :=
  calcRegression_perm_invariant [⟨1, 1⟩, ⟨2, 2⟩] [⟨2, 2⟩, ⟨1, 1⟩]
    (List.Perm.swap (⟨2, 2⟩ : Point) (⟨1, 1⟩ : Point) [])

/-- Animation duration `Math.max(80, animSpeed * 8)` (LinearRegression.tsx
line 276). -/
def durationOf (animSpeed : ℚ) : ℚ := max 80 (animSpeed * 8)

/-- Cubic ease-in-out,
`norm < 0.5 ? 4·norm³ : 1 − (−2·norm + 2)³/2` (line 288). -/
def easeInOutCubic (norm : ℚ) : ℚ :=
  if norm < 1 / 2 then 4 * norm * norm * norm else 1 - (-2 * norm + 2) ^ 3 / 2

/-- Observable outcome of one animation frame callback: the displayed line
after the tick, whether the session is still animating, and whether
another frame was scheduled. -/
structure SpiralTick where
  currentM : ℚ
  currentB : ℚ
  isAnimating : Bool
  rescheduled : Bool
deriving DecidableEq

/-- The perturbed line value written by the first `setCurrentM/B` pair of
the `step` callback (LinearRegression.tsx lines 283-314): eased base
movement plus a sinusoidal perturbation whose amplitude scales with
`1 − ease`. `Math.cos`/`Math.sin` are abstracted as arbitrary functions
`cosF`/`sinF`. -/
def spiralRaw (cosF sinF : ℚ → ℚ) (startM startB targetM targetB animSpeed elapsed : ℚ) :
    ℚ × ℚ :=
  let norm := min 1 (elapsed / durationOf animSpeed)
  let ease := easeInOutCubic norm
  let baseM := startM + (targetM - startM) * ease
  let baseB := startB + (targetB - startB) * ease
  let spiralRadius := 1 - ease
  let angle := elapsed / 80
  let spiralM := cosF angle * 2 * spiralRadius
  let spiralB := sinF angle * 4 * spiralRadius
  (baseM + spiralM, baseB + spiralB)

/-- Net effect of one `step` callback (LinearRegression.tsx lines 283-325):
it writes the perturbed value, then if `norm < 1` reschedules itself,
otherwise overwrites the line with the exact target, stops animating and
clears the frame handle — the final write wins. -/
def spiralStep (cosF sinF : ℚ → ℚ) (startM startB targetM targetB animSpeed elapsed : ℚ) :
    SpiralTick :=
  let norm := min 1 (elapsed / durationOf animSpeed)
  let raw := spiralRaw cosF sinF startM startB targetM targetB animSpeed elapsed
  if norm < 1 then ⟨raw.1, raw.2, true, true⟩
  else ⟨targetM, targetB, false, false⟩

lemma durationOf_pos (animSpeed : ℚ) : 0 < durationOf animSpeed :=
  lt_of_lt_of_le (by norm_num) (le_max_left 80 (animSpeed * 8))

lemma norm_eq_one (animSpeed elapsed : ℚ) (h : durationOf animSpeed ≤ elapsed) :
    min 1 (elapsed / durationOf animSpeed) = 1 :=
  min_eq_left ((one_le_div (durationOf_pos animSpeed)).mpr h)

/-- C5: once the elapsed time reaches the duration (`norm = 1`, the
terminal tick), the ease is exactly 1, the spiral amplitude `1 − ease` is
exactly 0 — so even the perturbed pre-snap value equals the target for
every possible `cos`/`sin` — and the callback sets the displayed line
exactly to `(targetM, targetB)`, stops animating and schedules no further
frame. -/
theorem spiralStep_terminal (cosF sinF : ℚ → ℚ)
    (startM startB targetM targetB animSpeed elapsed : ℚ)
    (h : durationOf animSpeed ≤ elapsed) :
    spiralStep cosF sinF startM startB targetM targetB animSpeed elapsed =
      ⟨targetM, targetB, false, false⟩ ∧
    spiralRaw cosF sinF startM startB targetM targetB animSpeed elapsed =
      (targetM, targetB) := by
  have hn := norm_eq_one animSpeed elapsed h
  have hease : easeInOutCubic 1 = 1 := by norm_num [easeInOutCubic]
  constructor
  · simp only [spiralStep, hn, lt_irrefl, if_false]
  · simp only [spiralRaw, hn, hease, Prod.mk.injEq]
    constructor <;> ring

/-- C5 witness: a concrete terminal tick (speed 40, duration 320, elapsed
320) with sample trig functions lands exactly on the target `(3, 7)`. -/
theorem spiralStep_terminal_witness :
    spiralStep (fun _ => 1) (fun _ => 0) 0 0 3 7 40 320 = ⟨3, 7, false, false⟩ ∧
    spiralRaw (fun _ => 1) (fun _ => 0) 0 0 3 7 40 320 = (3, 7) :=
  spiralStep_terminal (fun _ => 1) (fun _ => 0) 0 0 3 7 40 320
    (by norm_num [durationOf])

/-- Data captured by the scheduled `setTimeout(animateStep, stepDuration)`
closure of the stepwise-trace animation (part_001 lines 329-352): the local
step cursor, the step count, and the synthetic random point buffer. -/
structure TraceTimeout where
  currentStep : ℕ
  totalSteps : ℕ
  randomPoints : List Point
deriving DecidableEq

/-- Component state of the part_001 (stepwise-trace) variant relevant to
the Clear action, including the pending timeout callback if one is
scheduled. -/
structure TraceState where
  points : List Point
  manualM : Option ℚ
  manualB : Option ℚ
  currentM : ℚ
  currentB : ℚ
  isAnimating : Bool
  animationPoints : List Point
  currentAnimationStep : ℕ
  pendingTimeout : Option TraceTimeout
deriving DecidableEq

/-- Transcription of `clearPoints` of part_001 (lines 478-486): empties the
points, clears the overrides, zeroes the displayed line, empties the trace
buffer and lowers the animating flag. The body contains no `clearTimeout`
call, so a pending timeout is left untouched (the animation effect's
cleanup, part_001 lines 356-358, is empty as well). -/
def clearPoints1 (s : TraceState) : TraceState :=
  { s with points := [], manualM := none, manualB := none,
           currentM := 0, currentB := 0,
           animationPoints := [], isAnimating := false }

/-- One firing of the scheduled `animateStep` timeout (part_001 lines
334-352). The closure reads only its captured locals: below the step
bound it advances the cursor and reschedules itself; past the bound it
computes the fit of the synthetic buffer and writes it to the displayed
line. It never consults `isAnimating`. -/
def fireTimeout (s : TraceState) : TraceState :=
  match s.pendingTimeout with
  | none => s
  | some tk =>
    if tk.currentStep ≤ tk.totalSteps then
      { s with currentAnimationStep := tk.currentStep,
               pendingTimeout := some ⟨tk.currentStep + 1, tk.totalSteps, tk.randomPoints⟩ }
    else
      { s with currentM := (calcRegression tk.randomPoints).m,
               currentB := (calcRegression tk.randomPoints).b,
               pendingTimeout := none }

/-- Component state of the spiral variants relevant to Clear:
`rafScheduled` models whether `rafRef.current` holds a scheduled frame. -/
structure SpiralState where
  points : List Point
  manualM : Option ℚ
  manualB : Option ℚ
  currentM : ℚ
  currentB : ℚ
  isAnimating : Bool
  rafScheduled : Bool
deriving DecidableEq

/-- Transcription of `clearPoints` of the main file (lines 454-460) and
part_000 (lines 464-470): five state writes; no `cancelAnimationFrame`
and no write to `isAnimating`. -/
def clearPoints0 (s : SpiralState) : SpiralState :=
  { s with points := [], manualM := none, manualB := none,
           currentM := 0, currentB := 0 }

/-- A concrete state in which the stepwise-trace session has a timeout
scheduled for its final step (cursor 12 past the 11 step bound) over the
synthetic buffer `[(0,1),(1,3)]`, whose fit is `m = 2, b = 1`. -/
def clearCounterState : TraceState :=
  ⟨[⟨1, 3⟩], none, none, 5, 5, true, [], 5, some ⟨12, 11, [⟨0, 1⟩, ⟨1, 3⟩]⟩⟩

/-- C6 counterexample: Clear does not cancel the scheduled animation
callback. In the concrete state above, after `clearPoints` the timeout is
still pending, and when it fires it runs a further tick of the aborted
session, overwriting the cleared line `(0, 0)` with the synthetic fit
slope 2. -/
theorem clearPoints_tick_survives :
    (clearPoints1 clearCounterState).pendingTimeout ≠ none ∧
    (clearPoints1 clearCounterState).currentM = 0 ∧
    (fireTimeout (clearPoints1 clearCounterState)).currentM = 2 := by
  refine ⟨by simp [clearPoints1, clearCounterState], rfl, ?_⟩
  show (calcRegression [⟨0, 1⟩, ⟨1, 3⟩]).m = 2
  norm_num [calcRegression]

/-- C6 amended: in every state, Clear empties the point sequence, clears
the manual override, resets the displayed line to `(0, 0)` and leaves the
derived regression result at `(0, 0, 0)` — but it does not cancel
scheduled animation callbacks: the part_001 variant leaves any pending
trace timeout scheduled (it only lowers the animating flag, which the
timeout closure never reads), and the spiral variants touch neither the
animating flag nor the scheduled frame handle inside `clearPoints`
(cancellation there happens only indirectly, via React effect cleanup,
when the recomputed target changes). -/
theorem clearPoints_amended (s : TraceState) (s0 : SpiralState) :
    (clearPoints1 s).points = [] ∧ (clearPoints1 s).manualM = none ∧
    (clearPoints1 s).manualB = none ∧ (clearPoints1 s).currentM = 0 ∧
    (clearPoints1 s).currentB = 0 ∧ (clearPoints1 s).isAnimating = false ∧
    calcRegression (clearPoints1 s).points = ⟨0, 0, 0⟩ ∧
    (clearPoints1 s).pendingTimeout = s.pendingTimeout ∧
    (clearPoints0 s0).points = [] ∧ (clearPoints0 s0).manualM = none ∧
    (clearPoints0 s0).manualB = none ∧ (clearPoints0 s0).currentM = 0 ∧
    (clearPoints0 s0).currentB = 0 ∧
    calcRegression (clearPoints0 s0).points = ⟨0, 0, 0⟩ ∧
    (clearPoints0 s0).isAnimating = s0.isAnimating ∧
    (clearPoints0 s0).rafScheduled = s0.rafScheduled :=
  ⟨rfl, rfl, rfl, rfl, rfl, rfl, rfl, rfl, rfl, rfl, rfl, rfl, rfl, rfl, rfl, rfl⟩

/-- Transcription of the nearest-point search in `onMove`
(LinearRegression.tsx lines 364-376; identical in part_000 lines 371-383):
`minD` starts at 9999 and a point is taken when `d < minD && d < 12` with
`d = Math.hypot(cx - px, cy - py)`. Distances are compared through their
squares (`9999²` and `12² = 144`), which preserves every comparison of
non-negative reals, so no square root is needed. -/
def hitTest (points : List Point) (px py width height : ℚ) : Option ℕ :=
  (points.enum.foldl
    (fun acc ip =>
      let c := dataToPixel points ip.2.x ip.2.y width height
      let dsq := (c.1 - px) ^ 2 + (c.2 - py) ^ 2
      if dsq < acc.2 ∧ dsq < 144 then (some ip.1, dsq) else acc)
    ((none : Option ℕ), (9999 : ℚ) ^ 2)).1

/-- Component state relevant to hover in the spiral variants. -/
structure HoverState where
  points : List Point
  isAnimating : Bool
  hoverIdx : Option ℕ
deriving DecidableEq

/-- Transcription of the `onMove` handler of the main file (lines 352-385;
identical in part_000 lines 359-392): outside the plot interior the hover
is cleared, otherwise it is set to the nearest hit. The handler contains
no `isAnimating` guard — it runs the same way during an animation. -/
def onMoveMain (s : HoverState) (px py width height : ℚ) : HoverState :=
  if px < PADDING ∨ px > width - PADDING ∨ py < PADDING ∨ py > height - PADDING then
    { s with hoverIdx := none }
  else
    { s with hoverIdx := hitTest s.points px py width height }

/-- Box placement of the `onMove` handler of part_001 (lines 372-417): the
handler returns immediately when `isAnimating` is set, ignores positions
inside the padding margin, and otherwise draws a tooltip box whose
position is flipped/clamped to the viewport. `textWidth` stands for the
measured text extent; the box lists `2 + numPoints` lines. -/
def tooltipBox1 (isAnimating : Bool) (px py width height textWidth : ℚ)
    (numPoints : ℕ) : Option (ℚ × ℚ) :=
  match isAnimating with
  | true => none
  | false =>
    if px < PADDING ∨ px > width - PADDING ∨ py < PADDING ∨ py > height - PADDING then
      none
    else
      let boxWidth := textWidth + 20
      let boxHeight : ℚ := ((numPoints : ℚ) + 2) * 18 + 10
      let bx1 := px + 20
      let bx2 := if bx1 + boxWidth > width - PADDING then px - boxWidth - 20 else bx1
      let by1 := py - boxHeight / 2
      let by2 := if by1 < PADDING then PADDING else by1
      let by3 := if by2 + boxHeight > height - PADDING then height - PADDING - boxHeight else by2
      some (bx2, by3)

/-- C9 counterexample: in the spiral variants the pointer-move handler is
not gated on animation. With the default points in an 800×420 viewport,
point 0 = (1,3) projects to pixel `(496/3, 2280/7)`; a pointer-move to
exactly that position while `isAnimating = true` changes the hover state
from `none` to `some 0`. -/
theorem onMove_changes_hover_while_animating :
    (⟨defaultPoints, true, none⟩ : HoverState).isAnimating = true ∧
    (⟨defaultPoints, true, none⟩ : HoverState).hoverIdx = none ∧
    (onMoveMain ⟨defaultPoints, true, none⟩ (496 / 3) (2280 / 7) 800 420).hoverIdx =
      some 0 := by
  refine ⟨rfl, rfl, ?_⟩
  have hdom : getDomain [⟨1, 3⟩, ⟨2, 5⟩, ⟨3, 4⟩, ⟨4, 7⟩, ⟨5, 8⟩] = ⟨0, 6, 2, 9⟩ := by
    rw [show ([⟨1, 3⟩, ⟨2, 5⟩, ⟨3, 4⟩, ⟨4, 7⟩, ⟨5, 8⟩] : List Point) =
      ⟨1, 3⟩ :: [⟨2, 5⟩, ⟨3, 4⟩, ⟨4, 7⟩, ⟨5, 8⟩] from rfl, getDomain_cons]
    norm_num [minXof, maxXof, minYof, maxYof, xpadOf, ypadOf]
  have hmove : ¬((496 : ℚ) / 3 < PADDING ∨ (496 : ℚ) / 3 > 800 - PADDING ∨
      (2280 : ℚ) / 7 < PADDING ∨ (2280 : ℚ) / 7 > 420 - PADDING) := by
    norm_num [PADDING]
  rw [onMoveMain, if_neg hmove]
  show hitTest defaultPoints (496 / 3) (2280 / 7) 800 420 = some 0
  rw [hitTest]
  norm_num [defaultPoints, List.enum, List.enumFrom, dataToPixel, hdom, PADDING]

/-- C9 amended: only the part_001 variant ignores pointer-move while an
animation is active — its handler returns before any processing, so no
tooltip is drawn and no state changes; when no animation is active and
the pointer is inside the plot interior it does draw a tooltip box. (In
the spiral variants, per the counterexample, hover hit-testing proceeds
regardless of animation state.) -/
theorem onMove_guard_amended (px py width height textWidth : ℚ) (numPoints : ℕ) :
    tooltipBox1 true px py width height textWidth numPoints = none ∧
    (¬(px < PADDING ∨ px > width - PADDING ∨ py < PADDING ∨ py > height - PADDING) →
      ∃ box, tooltipBox1 false px py width height textWidth numPoints = some box) := by
  refine ⟨rfl, fun h => ?_⟩
  simp only [tooltipBox1, if_neg h]
  exact ⟨_, rfl⟩

/-- C9 witness: the amended guard behaviour at a concrete pointer position
inside an 800×420 plot. -/
theorem onMove_guard_amended_witness :
    tooltipBox1 true 100 100 800 420 50 5 = none ∧
    ∃ box, tooltipBox1 false 100 100 800 420 50 5 = some box := by
  have h := onMove_guard_amended 100 100 800 420 50 5
  exact ⟨h.1, h.2 (by norm_num [PADDING])⟩
